import Mathlib

/-!
Verification of the harvesting core of the scraping module
(`src/webscraping/webscraping.py`): the ArXiv feed harvester, the PubMed
listing harvester, the MEDLINE record parser, the HTTP fetcher with
retry/backoff, the validators and the date normalizers.  Pure string and
control-flow logic is embedded directly; network and HTML parsing
(requests, BeautifulSoup, feedparser) are abstracted as environment
functions supplying the values the code would have extracted from them.
-/

namespace Webscraping

/-! ### Character and string utilities mirroring the Python builtins used -/

/-- Python whitespace for `str.strip` / `str.split()` (the code points
    `str.strip` treats as whitespace that can occur in this data). -/
def isPySpace (c : Char) : Bool :=
  c = ' ' || c = '\t' || c = '\n' || c = '\r' || c = '\x0b' || c = '\x0c'

def isDigitChar (c : Char) : Bool := '0' ≤ c && c ≤ '9'

def charToDigit (c : Char) : Nat := c.toNat - 48

/-- `str.strip()` on a character list. -/
def trimC (l : List Char) : List Char :=
  ((l.dropWhile isPySpace).reverse.dropWhile isPySpace).reverse

/-- `str.strip()`. -/
def pyStrip (s : String) : String := String.mk (trimC s.data)

/-- `s.startswith(p)` on character lists. -/
def startsWithC : List Char → List Char → Bool
  | [], _ => true
  | _ :: _, [] => false
  | p :: ps, c :: cs => p == c && startsWithC ps cs

/-- `str.splitlines()`: split at line terminators, no trailing empty line
    for a terminator-final string. -/
def splitlinesGo : List Char → List Char → List (List Char)
  | [], cur => if cur.isEmpty then [] else [cur.reverse]
  | '\r' :: '\n' :: rest, cur => cur.reverse :: splitlinesGo rest []
  | '\n' :: rest, cur => cur.reverse :: splitlinesGo rest []
  | '\r' :: rest, cur => cur.reverse :: splitlinesGo rest []
  | c :: rest, cur => splitlinesGo rest (c :: cur)

def splitlinesC (l : List Char) : List (List Char) := splitlinesGo l []

/-- `str.split()` (split on whitespace runs, dropping empties). -/
def tokGo : List Char → List Char → List (List Char)
  | [], cur => if cur.isEmpty then [] else [cur.reverse]
  | c :: rest, cur =>
    if isPySpace c then
      if cur.isEmpty then tokGo rest [] else cur.reverse :: tokGo rest []
    else tokGo rest (c :: cur)

def tokenizeWS (l : List Char) : List (List Char) := tokGo l []

/-- `str.split(sep)` for a single separator character (keeps empties). -/
def splitGo (sep : Char) : List Char → List Char → List (List Char)
  | [], cur => [cur.reverse]
  | c :: rest, cur =>
    if c = sep then cur.reverse :: splitGo sep rest []
    else splitGo sep rest (c :: cur)

def splitOnC (sep : Char) (l : List Char) : List (List Char) := splitGo sep l []

/-- `s.rstrip(c)` for one character. -/
def rstripChar (c : Char) (l : List Char) : List Char :=
  (l.reverse.dropWhile (· = c)).reverse

/-- `s.strip(c)` for one character. -/
def stripChar (c : Char) (l : List Char) : List Char :=
  ((l.dropWhile (· = c)).reverse.dropWhile (· = c)).reverse

/-- Decimal digits of `n`, most significant first (fuel-based so the kernel
    can evaluate it; `natDigitsBE` supplies sufficient fuel). -/
def natDigitsAux : Nat → Nat → List Char
  | _, 0 => []
  | n, fuel + 1 =>
    if n = 0 then [] else natDigitsAux (n / 10) fuel ++ [Nat.digitChar (n % 10)]

def natDigitsBE (n : Nat) : List Char := natDigitsAux n n

/-- Value of a big-endian decimal digit string. -/
def digitsVal (l : List Char) : Nat := l.foldl (fun a c => a * 10 + charToDigit c) 0

/-- `"%02d"` (as produced by `strftime("%d")` / `strftime("%m")`). -/
def pad2 (n : Nat) : List Char :=
  List.replicate (2 - (natDigitsBE n).length) '0' ++ natDigitsBE n

/-- `"%04d"` (as produced by `strftime("%Y")`). -/
def pad4 (n : Nat) : List Char :=
  List.replicate (4 - (natDigitsBE n).length) '0' ++ natDigitsBE n

/-- `str.zfill(2)` (Python keeps a leading sign character in place). -/
def zfill2 (l : List Char) : List Char :=
  if 2 ≤ l.length then l
  else
    match l with
    | [] => ['0', '0']
    | [c] => if c = '+' ∨ c = '-' then [c, '0'] else ['0', c]
    | l => l

/-- `"; ".join(xs)`. -/
def joinSemi : List String → String
  | [] => ""
  | [a] => a
  | a :: rest => a ++ "; " ++ joinSemi rest

/-- `s.replace("\n", " ")`. -/
def replaceNl (s : String) : String :=
  String.mk (s.data.map (fun c => if c = '\n' then ' ' else c))

/-! ### ArXiv date normalizer (`ArXivScraper._format_date`)

`datetime.strptime(date_str, "%Y-%m-%d")`: `%Y` is exactly four digits,
`%m` one or two digits valued 1..12, `%d` one or two digits valued 1..31,
the whole string must be consumed, and the `datetime` constructor further
requires `year ≥ 1` and the day to exist in the month (Gregorian leap
rule).  `strftime("%d/%m/%Y")` zero-pads day and month to two digits and
the year to four. -/

def leapYear (y : Nat) : Bool := (y % 4 = 0 && y % 100 ≠ 0) || y % 400 = 0

def daysInMonth (y m : Nat) : Nat :=
  if m = 2 then (if leapYear y then 29 else 28)
  else if m = 4 ∨ m = 6 ∨ m = 9 ∨ m = 11 then 30
  else 31

def allDigits (l : List Char) : Bool := l.all isDigitChar

def parseYMD (cs : List Char) : Option (Nat × Nat × Nat) :=
  match splitOnC '-' cs with
  | [a, b, c] =>
    if a.length = 4 ∧ allDigits a ∧ (b.length = 1 ∨ b.length = 2) ∧ allDigits b ∧
        (c.length = 1 ∨ c.length = 2) ∧ allDigits c then
      let y := digitsVal a
      let m := digitsVal b
      let d := digitsVal c
      if 1 ≤ y ∧ 1 ≤ m ∧ m ≤ 12 ∧ 1 ≤ d ∧ d ≤ daysInMonth y m then some (y, m, d)
      else none
    else none
  | _ => none

namespace ArXivScraper

/-- `ArXivScraper._format_date`: `strptime("%Y-%m-%d")` then
    `strftime("%d/%m/%Y")`; any parse failure is caught and yields `""`. -/
def _format_date (s : String) : String :=
  match parseYMD s.data with
  | some (y, m, d) => String.mk (pad2 d ++ '/' :: (pad2 m ++ '/' :: pad4 y))
  | none => ""

end ArXivScraper

/-! ### PubMed date normalizer (`PubMedScraper._format_pubmed_date`) -/

namespace PubMedScraper

/-- The fixed 12-entry month abbreviation table of `_format_pubmed_date`. -/
def month_map : List (String × String) :=
  [("Jan", "01"), ("Feb", "02"), ("Mar", "03"), ("Apr", "04"),
   ("May", "05"), ("Jun", "06"), ("Jul", "07"), ("Aug", "08"),
   ("Sep", "09"), ("Oct", "10"), ("Nov", "11"), ("Dec", "12")]

/-- `PubMedScraper._format_pubmed_date`: empty input is returned as `""`;
    otherwise `date_str.strip().split()` is inspected: three or more
    tokens give `day.zfill(2)/month/year` with the month looked up in
    `month_map` (default `"01"`), two tokens give `01/month/year`, a
    single four-character token gives `01/01/year`, anything else `""`. -/
def _format_pubmed_date (date_str : String) : String :=
  if date_str = "" then ""
  else
    match tokenizeWS (trimC date_str.data) with
    | y :: mn :: d :: _ =>
      let month := (month_map.lookup (String.mk mn)).getD "01"
      String.mk (zfill2 d) ++ "/" ++ month ++ "/" ++ String.mk y
    | [y, mn] =>
      let month := (month_map.lookup (String.mk mn)).getD "01"
      "01/" ++ month ++ "/" ++ String.mk y
    | [y] => if y.length = 4 then "01/01/" ++ String.mk y else ""
    | [] => ""

end PubMedScraper

/-! ### MEDLINE record parser (`PubMedScraper._parse_medline_format`) -/

/-- Output record shape produced by `PubMedScraper._finalize_paper`. -/
structure Paper where
  doi : String
  title : String
  authors : String
  abstract : String
  journal : String
  date : String
  pmid : String
deriving DecidableEq, Repr

/-- The in-progress `current` dict of the parser: each field is present
    (`some`) exactly when the corresponding dict key has been set;
    `authors` is the accumulated `AU` list. -/
structure MedCur where
  pmid : Option String := none
  title : Option String := none
  abstract : Option String := none
  journal : Option String := none
  date : Option String := none
  doi : Option String := none
  authors : List String := []
deriving DecidableEq, Repr

/-- Python truthiness of the `current` dict (`if current:`). -/
def MedCur.nonempty (c : MedCur) : Bool :=
  c.pmid.isSome || c.title.isSome || c.abstract.isSome || c.journal.isSome ||
    c.date.isSome || c.doi.isSome || !c.authors.isEmpty

/-- `last_key` of the parser (`none_` models Python `None`). -/
inductive LastKey where
  | pmid | title | abstract | authors | journal | date | aid | none_
deriving DecidableEq, Repr

/-- `re.search(r"(10\.\d{4,9}/[^\s\]]+)", line)` tried at one position:
    literal `10.`, then the following digit run must have length 4..9 and
    be followed by `/` and at least one character that is neither
    whitespace nor `]`; the match is maximal to the right. -/
def doiAt (l : List Char) : Option (List Char) :=
  match l with
  | '1' :: '0' :: '.' :: rest =>
    let ds := rest.takeWhile isDigitChar
    if 4 ≤ ds.length ∧ ds.length ≤ 9 then
      match rest.drop ds.length with
      | '/' :: rest2 =>
        let run := rest2.takeWhile (fun c => !isPySpace c && !(c = ']'))
        if run.isEmpty then none
        else some ('1' :: '0' :: '.' :: (ds ++ '/' :: run))
      | _ => none
    else none
  | _ => none

/-- Leftmost `re.search` for the DOI pattern. -/
def findDoi : List Char → Option (List Char)
  | [] => none
  | c :: rest =>
    match doiAt (c :: rest) with
    | some r => some r
    | none => findDoi rest

namespace PubMedScraper

/-- `PubMedScraper._finalize_paper`. -/
def _finalize_paper (d : MedCur) : Paper :=
  { doi := d.doi.getD ""
    title := pyStrip (replaceNl (d.title.getD ""))
    authors := joinSemi d.authors
    abstract := pyStrip (replaceNl (d.abstract.getD ""))
    journal := d.journal.getD ""
    date := _format_pubmed_date (d.date.getD "")
    pmid := d.pmid.getD "" }

/-- `PubMedScraper._is_paper_valid`: every required field must be present
    and non-blank after `strip()` (`pmid` is not required). -/
def _is_paper_valid (p : Paper) : Bool :=
  !(pyStrip p.doi = "") && !(pyStrip p.title = "") && !(pyStrip p.authors = "") &&
    !(pyStrip p.abstract = "") && !(pyStrip p.journal = "") && !(pyStrip p.date = "")

/-- One line of the parser loop: returns the updated
    `(current, last_key, papers)` state. -/
def medLine (st : MedCur × LastKey × List Paper) (raw : List Char) :
    MedCur × LastKey × List Paper :=
  let line := rstripChar '\n' raw
  let cur := st.1
  let lk := st.2.1
  let papers := st.2.2
  if trimC line = [] then
    if cur.nonempty then ({}, LastKey.none_, papers ++ [_finalize_paper cur])
    else (cur, lk, papers)
  else if startsWithC [' ', ' ', ' ', ' ', ' ', ' '] line then
    match lk with
    | LastKey.title =>
      let v := pyStrip ((cur.title.getD "") ++ " " ++ String.mk (trimC line))
      ({ cur with title := some v }, lk, papers)
    | LastKey.abstract =>
      let v := pyStrip ((cur.abstract.getD "") ++ " " ++ String.mk (trimC line))
      ({ cur with abstract := some v }, lk, papers)
    | _ => (cur, lk, papers)
  else if startsWithC "PMID- ".data line then
    ({ cur with pmid := some (String.mk (trimC (line.drop 6))) }, LastKey.pmid, papers)
  else if startsWithC "TI  - ".data line then
    ({ cur with title := some (String.mk (trimC (line.drop 6))) }, LastKey.title, papers)
  else if startsWithC "AB  - ".data line then
    ({ cur with abstract := some (String.mk (trimC (line.drop 6))) }, LastKey.abstract, papers)
  else if startsWithC "AU  - ".data line then
    ({ cur with authors := cur.authors ++ [String.mk (trimC (line.drop 6))] },
      LastKey.authors, papers)
  else if startsWithC "TA  - ".data line then
    ({ cur with journal := some (String.mk (trimC (line.drop 6))) }, LastKey.journal, papers)
  else if startsWithC "DP  - ".data line then
    ({ cur with date := some (String.mk (trimC (line.drop 6))) }, LastKey.date, papers)
  else if startsWithC "AID - ".data line then
    (match findDoi line with
      | some d => ({ cur with doi := some (String.mk d) }, LastKey.aid, papers)
      | none => (cur, LastKey.aid, papers))
  else (cur, LastKey.none_, papers)

/-- `href.strip("/").split("/")[-1]`. -/
def hrefLastSegment (href : String) : String :=
  String.mk ((splitOnC '/' (stripChar '/' href.data)).getLastD [])

/-- `PubMedScraper._parse_medline_format`.  After the line loop the source
    unconditionally overwrites `current["pmid"]` with the numeric id of the
    originating detail link and then (the dict now being non-empty)
    finalizes `current` as one more record. -/
def _parse_medline_format (medline_text : String) (href : String) : List Paper :=
  let st := (splitlinesC medline_text.data).foldl medLine ({}, LastKey.none_, [])
  let cur := { st.1 with pmid := some (hrefLastSegment href) }
  if cur.nonempty then st.2.2 ++ [_finalize_paper cur] else st.2.2

end PubMedScraper

/-! ### HTTP fetcher (`PubMedScraper._get`) -/

/-- One attempt's outcome as seen by `_get`: either a response with a
    status code and body, or a raised transport exception. -/
inductive HttpResp where
  | ok (status : Nat) (body : String)
  | exn
deriving DecidableEq, Repr

/-- The retriable status set `(429, 500, 502, 503, 504)`. -/
def retriableStatus (s : Nat) : Bool :=
  s = 429 || s = 500 || s = 502 || s = 503 || s = 504

/-- `self.delay * attempt * 1.6`, the backoff slept after a retriable
    failure of the given attempt number. -/
def backoff (delay : ℚ) (attempt : Nat) : ℚ := delay * attempt * (8 / 5)

namespace PubMedScraper

/-- The `for attempt in range(1, max_retries + 1)` loop of `_get`;
    `rem` is the number of attempts still available, `responses` yields the
    outcome of each successive attempt.  Returns the fetched body (if any)
    together with the list of backoff sleeps performed, in order. -/
def getGo (delay : ℚ) : List HttpResp → Nat → Nat → Option String × List ℚ
  | _, _, 0 => (none, [])
  | [], _, _ + 1 => (none, [])
  | HttpResp.ok s b :: rest, attempt, rem + 1 =>
    if s = 200 then (some b, [])
    else if retriableStatus s then
      let r := getGo delay rest (attempt + 1) rem
      (r.1, backoff delay attempt :: r.2)
    else (none, [])
  | HttpResp.exn :: rest, attempt, rem + 1 =>
    let r := getGo delay rest (attempt + 1) rem
    (r.1, backoff delay attempt :: r.2)

/-- `PubMedScraper._get` over the sequence of attempt outcomes. -/
def _get (responses : List HttpResp) (max_retries : Nat) (delay : ℚ) :
    Option String × List ℚ :=
  getGo delay responses 1 max_retries

/-! ### Listing link extraction (`PubMedScraper._extract_hrefs_from_page`)

The BeautifulSoup selection of the title anchors is abstracted to the list
of their `href` attribute values; the per-anchor normalization and the
numeric-segment filter are embedded exactly. -/

/-- `href.split("?")[0]`. -/
def beforeQuery (l : List Char) : List Char := l.takeWhile (fun c => !(c = '?'))

/-- `if not href.startswith("/"): href = "/" + href`. -/
def ensureLeadSlash (l : List Char) : List Char :=
  if startsWithC ['/'] l then l else '/' :: l

/-- On the reversed href (optional final `/` already stripped): require a
    non-empty digit run followed immediately by a `/`; on success return
    the input unchanged. -/
def numSegCheck (r1 : List Char) : Option (List Char) :=
  if (r1.takeWhile isDigitChar).isEmpty then none
  else if (r1.drop (r1.takeWhile isDigitChar).length).head? = some '/' then some r1
  else none

/-- `re.search(r"/(\d+)/?$", href)`: reverse, strip at most one final
    `/`, then `numSegCheck`. -/
def numSegTail (h2 : List Char) : Option (List Char) :=
  numSegCheck (if h2.reverse.head? = some '/' then h2.reverse.tail else h2.reverse)

/-- The body of the per-anchor loop: strip, drop from the first `?` on,
    prepend `/` if missing, then require the numeric-final-segment match
    and append a final `/` if missing.  `none` means the anchor is
    discarded. -/
def normalizeHref (anchor : String) : Option String :=
  let h0 := trimC anchor.data
  if h0.isEmpty then none
  else
    match numSegTail (ensureLeadSlash (beforeQuery h0)) with
    | some r1 => some (String.mk (r1.reverse ++ ['/']))
    | none => none

/-- `PubMedScraper._extract_hrefs_from_page`, over the anchors' href
    values. -/
def _extract_hrefs_from_page (anchors : List String) : List String :=
  anchors.filterMap normalizeHref

/-- Number of leading `/` characters of a string. -/
def leadingSlashes (s : String) : Nat := (s.data.takeWhile (fun c => c = '/')).length

/-! ### Listing-source harvester (`PubMedScraper.get_trending_papers`) -/

/-- Network/HTML environment of one PubMed run: the listing page body per
    page number (`none` models a failed `_get`), the hrefs the soup
    selection would extract from a body, and the MEDLINE text per detail
    href (`none` models a failed `_get`). -/
structure PMEnv where
  listing : Nat → Option String
  hrefsOf : String → List String
  detail : String → Option String

/-- The `for paper in batch` loop: append each valid paper, stopping once
    `max_results` is reached (checked only after an append). -/
def addBatch (max_results : Nat) : List Paper → List Paper → List Paper
  | [], collected => collected
  | p :: ps, collected =>
    if _is_paper_valid p then
      let collected1 := collected ++ [p]
      if max_results ≤ collected1.length then collected1
      else addBatch max_results ps collected1
    else addBatch max_results ps collected

/-- The `for href in hrefs` loop: before each detail fetch the target
    count is re-checked; a failed fetch skips to the next href. -/
def processHrefs (env : PMEnv) (max_results : Nat) :
    List String → List Paper → List Paper
  | [], collected => collected
  | href :: rest, collected =>
    if max_results ≤ collected.length then collected
    else
      match env.detail href with
      | none => processHrefs env max_results rest collected
      | some txt =>
        processHrefs env max_results rest
          (addBatch max_results (_parse_medline_format txt href) collected)

/-- The `while len(collected) < max_results and page <= max_pages` loop
    (`max_pages = 20`).  Also returns the list of listing page numbers
    actually fetched, in order. -/
def trendGo (env : PMEnv) (max_results : Nat) :
    Nat → Nat → List Paper → List Paper × List Nat
  | 0, _, collected => (collected, [])
  | fuel + 1, page, collected =>
    if collected.length < max_results ∧ page ≤ 20 then
      match env.listing page with
      | none => (collected, [page])
      | some html =>
        let hrefs := env.hrefsOf html
        if hrefs.isEmpty then (collected, [page])
        else
          let collected1 := processHrefs env max_results hrefs collected
          let r := trendGo env max_results fuel (page + 1) collected1
          (r.1, page :: r.2)
    else (collected, [])

/-- `PubMedScraper.get_trending_papers` (21 fuel units cover the 20-page
    ceiling plus the final loop test). -/
def get_trending_papers (env : PMEnv) (max_results : Nat) :
    List Paper × List Nat :=
  trendGo env max_results 21 1 []

end PubMedScraper

/-! ### Feed-source harvester (`ArXivScraper.search_papers`) -/

/-- Record shape assembled from one feed entry by
    `ArXivScraper._parse_arxiv_response`. -/
structure ArxivPaper where
  doi : String
  title : String
  authors : String
  abstract : String
  «section» : String
  date : String
  arxiv_id : String
deriving DecidableEq, Repr

/-- Feed environment of one ArXiv run: the parsed candidate batch returned
    for a given `start` index (`none` models a request/parse exception
    reaching the `except` clause). -/
structure AxEnv where
  fetch : Nat → Option (List ArxivPaper)

namespace ArXivScraper

/-- `ArXivScraper._is_paper_valid`: all six required fields non-blank
    after `strip()`. -/
def _is_paper_valid (p : ArxivPaper) : Bool :=
  !(pyStrip p.doi = "") && !(pyStrip p.title = "") && !(pyStrip p.authors = "") &&
    !(pyStrip p.abstract = "") && !(pyStrip p.«section» = "") && !(pyStrip p.date = "")

/-- The batch filter loop of `search_papers`: accept valid papers whose
    DOI is unseen, marking DOIs seen; after each accept, once
    `len(collected) + len(valid) >= max_results` the accepted list is cut
    to `max_results - len(collected)` and the loop breaks.  Returns the
    accepted papers and the updated seen set. -/
def arxivScan (max_results collectedLen : Nat) :
    List ArxivPaper → List String → List ArxivPaper → List ArxivPaper × List String
  | [], seen, acc => (acc, seen)
  | p :: ps, seen, acc =>
    if _is_paper_valid p && !(seen.contains p.doi) then
      let acc1 := acc ++ [p]
      let seen1 := p.doi :: seen
      if max_results ≤ collectedLen + acc1.length then
        (acc1.take (max_results - collectedLen), seen1)
      else
        arxivScan max_results collectedLen ps seen1 acc1
    else arxivScan max_results collectedLen ps seen acc

/-- The `while len(collected_papers) < max_results` loop of
    `search_papers`, with `batch_size = 2 * max_results`.  On a
    zero-accept batch `start_index` advances by `batch_size` and the run
    aborts if the new index exceeds `5 * max_results`; otherwise it
    advances by the raw batch length.  Also returns the `start` indices of
    the requests actually issued, in order. -/
def searchGo (env : AxEnv) (max_results : Nat) :
    Nat → Nat → List ArxivPaper → List String → List ArxivPaper × List Nat
  | 0, _, collected, _ => (collected, [])
  | fuel + 1, start, collected, seen =>
    if collected.length < max_results then
      match env.fetch start with
      | none => (collected, [start])
      | some batch =>
        let vs := arxivScan max_results collected.length batch seen []
        let collected1 := collected ++ vs.1
        if vs.1.isEmpty then
          let start1 := start + 2 * max_results
          if 5 * max_results < start1 then (collected1, [start])
          else
            let r := searchGo env max_results fuel start1 collected1 vs.2
            (r.1, start :: r.2)
        else
          let r := searchGo env max_results fuel (start + batch.length) collected1 vs.2
          (r.1, start :: r.2)
    else (collected, [])

/-- `ArXivScraper.search_papers` for one category, over the feed
    environment.  At most `max_results` accepting iterations and three
    zero-accept iterations can occur, so `max_results + 4` fuel units are
    never exhausted. -/
def search_papers (env : AxEnv) (max_results : Nat) : List ArxivPaper × List Nat :=
  searchGo env max_results (max_results + 4) 0 [] []

/-- The valid, first-occurrence-DOI candidates of a batch in order, given
    already-seen DOIs: what the batch filter accepts when no target bound
    cuts it short. -/
def dedupValidArxiv : List ArxivPaper → List String → List ArxivPaper
  | [], _ => []
  | p :: ps, seen =>
    if _is_paper_valid p && !(seen.contains p.doi) then
      p :: dedupValidArxiv ps (p.doi :: seen)
    else dedupValidArxiv ps seen

end ArXivScraper

/-! ### Concrete scenarios used as counterexamples and witnesses -/

/-- A MEDLINE detail body whose record carries every required field,
    including an `AID` line with an embedded DOI, and a terminating blank
    line. -/
def medGood : String :=
  "PMID- 1\nTI  - T\nAB  - A\nAU  - X\nTA  - J\nDP  - 2024 Jan 15\nAID - 10.1000/x [doi]\n\n"

/-- A PubMed run whose first (and only) listing page shows the same detail
    link twice. -/
def envDup : PubMedScraper.PMEnv :=
  { listing := fun _ => some "L"
    hrefsOf := fun _ => ["/1/", "/1/"]
    detail := fun _ => some medGood }

/-- A detail body with a title only: its single parsed record lacks a DOI
    (and other required fields) and is rejected by the validator. -/
def medNoDoi : String := "TI  - X"

/-- A detail body that yields exactly one fully valid record (no trailing
    blank line, so only the end-of-input finalization emits it). -/
def medGoodZ : String :=
  "PMID- 9\nTI  - T\nAB  - A\nAU  - X\nTA  - J\nDP  - 2024\nAID - 10.1000/z [doi]"

/-- A PubMed run whose page 1 yields links but zero valid records and
    whose page 2 yields one valid record. -/
def envZero : PubMedScraper.PMEnv :=
  { listing := fun p => some (if p = 1 then "A" else "B")
    hrefsOf := fun h => if h = "A" then ["/1/"] else ["/2/"]
    detail := fun href => some (if href = "/1/" then medNoDoi else medGoodZ) }

/-- A PubMed run used as a supply witness: one page, one link, one valid
    record. -/
def envOne : PubMedScraper.PMEnv :=
  { listing := fun _ => some "H"
    hrefsOf := fun _ => ["/3/"]
    detail := fun _ => some medGoodZ }

/-- A fully valid ArXiv candidate. -/
def axGood : ArxivPaper :=
  { doi := "10.48550/arXiv.1", title := "T", authors := "A", abstract := "B",
    «section» := "S", date := "01/01/2024", arxiv_id := "1" }

/-- A second valid ArXiv candidate with a distinct DOI. -/
def axGood2 : ArxivPaper :=
  { doi := "10.48550/arXiv.2", title := "T2", authors := "A2", abstract := "B2",
    «section» := "S", date := "02/01/2024", arxiv_id := "2" }

/-- An invalid ArXiv candidate (blank title). -/
def axBad : ArxivPaper :=
  { doi := "10.48550/arXiv.bad", title := "", authors := "A", abstract := "B",
    «section» := "S", date := "01/01/2024", arxiv_id := "bad" }

/-- An ArXiv feed for target count 2 whose batch at start 0 has 12 raw
    candidates with a single acceptable one (advancing `start_index` to 12,
    beyond `5 * 2 = 10`) and whose batch at start 12 supplies a second
    acceptable candidate. -/
def envCont : AxEnv where
  fetch := fun start =>
    if start = 0 then some (axGood :: List.replicate 11 axBad)
    else if start = 12 then some [axGood2]
    else none

/-- An ArXiv feed returning only empty batches. -/
def envEmptyBatches : AxEnv where
  fetch := fun _ => some []

/-- An ArXiv feed whose first batch supplies one valid candidate. -/
def envAxOne : AxEnv where
  fetch := fun start => if start = 0 then some [axGood] else none

/-- The single valid paper harvested from `envOne` (detail link `/3/`). -/
def paperZ : Paper :=
  { doi := "10.1000/z", title := "T", authors := "X", abstract := "A",
    journal := "J", date := "01/01/2024", pmid := "3" }

/-- An attempt outcome on which `_get` retries: a raised transport
    exception, or a response whose status is in the retriable set (and is
    not 200). -/
def retriableFail : HttpResp → Bool
  | HttpResp.ok s _ => !(s = 200) && retriableStatus s
  | HttpResp.exn => true

/-! ## Lemmas about the HTTP fetcher -/

theorem getGo_take (d : ℚ) :
    ∀ (rem : Nat) (rs : List HttpResp) (attempt : Nat),
      PubMedScraper.getGo d rs attempt rem = PubMedScraper.getGo d (rs.take rem) attempt rem := by
  intro rem
  induction rem with
  | zero =>
    intro rs attempt
    cases rs with
    | nil => rfl
    | cons r rest => cases r <;> rfl
  | succ rem ih =>
    intro rs attempt
    cases rs with
    | nil => rfl
    | cons r rest =>
      cases r with
      | ok s b =>
        simp only [PubMedScraper.getGo, List.take_succ_cons]
        by_cases h200 : s = 200
        · simp [h200]
        · by_cases hr : retriableStatus s
          · simp [h200, hr, ih rest (attempt + 1)]
          · simp [h200, hr]
      | exn =>
        simp only [PubMedScraper.getGo, List.take_succ_cons]
        rw [ih rest (attempt + 1)]

theorem getGo_all_retriable (d : ℚ) :
    ∀ (rs : List HttpResp) (attempt : Nat), (∀ r ∈ rs, retriableFail r = true) →
      PubMedScraper.getGo d rs attempt rs.length =
        (none, (List.range rs.length).map (fun i => backoff d (attempt + i))) := by
  intro rs
  induction rs with
  | nil => intro attempt _; rfl
  | cons r rest ih =>
    intro attempt hall
    have hr := hall r (by simp)
    have hrest : ∀ x ∈ rest, retriableFail x = true := fun x hx => hall x (by simp [hx])
    have harith : ∀ i : Nat, attempt + 1 + i = attempt + (i + 1) := by omega
    cases r with
    | ok s b =>
      have hs : (!(s = 200) && retriableStatus s) = true := hr
      rw [Bool.and_eq_true] at hs
      have h200 : ¬ s = 200 := by
        intro h
        rw [h] at hs
        simp at hs
      have hret : retriableStatus s = true := hs.2
      simp only [List.length_cons, PubMedScraper.getGo]
      rw [if_neg h200, if_pos hret, ih (attempt + 1) hrest]
      simp [List.range_succ_eq_map, List.map_map, Function.comp_def, harith]
    | exn =>
      simp only [List.length_cons, PubMedScraper.getGo]
      rw [ih (attempt + 1) hrest]
      simp [List.range_succ_eq_map, List.map_map, Function.comp_def, harith]

/-! ## Claims C1, C2, C3, C5 -/

/-- C1: the claim states that neither harvester ever emits two records
    with the same dedup key.  The PubMed harvester declares `seen_pmids`
    but never consults it: in a run whose listing shows the same detail
    link `/1/` twice, the same record (DOI `10.1000/x`) is emitted twice.
    This evaluates the embedded harvester at that failing input. -/
theorem c1_pubmed_duplicates_kept :
    (PubMedScraper.get_trending_papers envDup 2).1.map (fun p => p.doi) =
      ["10.1000/x", "10.1000/x"] := by decide

/-- C2: the claim states that the block `"PMID- 1\nTI  - A\n      B\nAB  - C\n\n"`
    yields exactly one record and that the numeric-id fallback never adds a
    record.  The parser does emit the claimed record (`title = "A B"`,
    `abstract = "C"`), but the unconditional `current["pmid"] = ...` after
    the line loop makes `current` non-empty, so a second, stray record
    (only `pmid` set, from the href `/7/`) is also emitted. -/
theorem c2_parser_emits_stray_record :
    (PubMedScraper._parse_medline_format "PMID- 1\nTI  - A\n      B\nAB  - C\n\n" "/7/").map
        (fun p => (p.title, p.abstract, p.pmid)) =
      [("A B", "C", "1"), ("", "", "7")] := by decide

/-- C3: the HTTP fetcher retries only on transport exceptions and on
    status 429/500/502/503/504, and consumes at most `max_retries`
    attempts: any other non-200 status returns `none` immediately with no
    backoff sleep; `[503, 503, 200]` under `max_retries = 3` yields the
    200 body; `[503, 503, 503, 503]` yields `none` (the fourth response is
    never requested); the result depends only on the first `max_retries`
    responses; and a retriable status or an exception does move on to the
    next attempt. -/
theorem c3_http_fetcher_retry_policy :
    (∀ (s : Nat) (b : String) (rest : List HttpResp) (n : Nat) (d : ℚ),
        retriableStatus s = false → ¬ s = 200 →
        PubMedScraper._get (HttpResp.ok s b :: rest) (n + 1) d = (none, [])) ∧
    (∀ (d : ℚ) (b : String) (rest : List HttpResp),
        (PubMedScraper._get
          (HttpResp.ok 503 "" :: HttpResp.ok 503 "" :: HttpResp.ok 200 b :: rest) 3 d).1 =
          some b) ∧
    (∀ d : ℚ,
        (PubMedScraper._get
          [HttpResp.ok 503 "", HttpResp.ok 503 "", HttpResp.ok 503 "", HttpResp.ok 503 ""]
          3 d).1 = none) ∧
    (∀ (rs : List HttpResp) (n : Nat) (d : ℚ),
        PubMedScraper._get rs n d = PubMedScraper._get (rs.take n) n d) ∧
    (∀ (s : Nat) (b : String) (rest : List HttpResp) (n : Nat) (d : ℚ),
        retriableStatus s = true →
        (PubMedScraper._get (HttpResp.ok s b :: rest) (n + 1) d).1 =
          (PubMedScraper.getGo d rest 2 n).1) ∧
    (∀ (rest : List HttpResp) (n : Nat) (d : ℚ),
        (PubMedScraper._get (HttpResp.exn :: rest) (n + 1) d).1 =
          (PubMedScraper.getGo d rest 2 n).1) := by
  refine ⟨?_, ?_, ?_, ?_, ?_, ?_⟩
  · intro s b rest n d hret h200
    simp [PubMedScraper._get, PubMedScraper.getGo, h200, hret]
  · intro d b rest; rfl
  · intro d; rfl
  · intro rs n d; exact getGo_take d n rs 1
  · intro s b rest n d hret
    have h200 : ¬ s = 200 := by
      intro h
      rw [h] at hret
      simp [retriableStatus] at hret
    simp [PubMedScraper._get, PubMedScraper.getGo, h200, hret]
  · intro rest n d
    simp [PubMedScraper._get, PubMedScraper.getGo]

theorem c3_http_fetcher_retry_policy_witness :
    PubMedScraper._get [HttpResp.ok 404 "x"] 3 (7 / 10) = (none, []) ∧
    (PubMedScraper._get
      [HttpResp.ok 503 "", HttpResp.ok 503 "", HttpResp.ok 200 "B"] 3 (7 / 10)).1 = some "B" ∧
    (PubMedScraper._get
      [HttpResp.ok 503 "", HttpResp.ok 503 "", HttpResp.ok 503 "", HttpResp.ok 503 ""]
      3 (7 / 10)).1 = none ∧
    PubMedScraper._get [HttpResp.exn] 0 (7 / 10) =
      PubMedScraper._get ([HttpResp.exn].take 0) 0 (7 / 10) ∧
    (PubMedScraper._get [HttpResp.ok 429 "x"] 1 (7 / 10)).1 =
      (PubMedScraper.getGo (7 / 10) [] 2 0).1 ∧
    (PubMedScraper._get [HttpResp.exn] 1 (7 / 10)).1 =
      (PubMedScraper.getGo (7 / 10) [] 2 0).1 := by
  refine ⟨c3_http_fetcher_retry_policy.1 404 "x" [] 2 (7 / 10) (by decide) (by decide),
    c3_http_fetcher_retry_policy.2.1 (7 / 10) "B" [],
    c3_http_fetcher_retry_policy.2.2.1 (7 / 10),
    c3_http_fetcher_retry_policy.2.2.2.1 [HttpResp.exn] 0 (7 / 10),
    c3_http_fetcher_retry_policy.2.2.2.2.1 429 "x" [] 0 (7 / 10) (by decide),
    c3_http_fetcher_retry_policy.2.2.2.2.2 [] 0 (7 / 10)⟩

/-- C5: the claim states no backoff sleep happens after the final failed
    attempt.  On three straight 503s with `max_retries = 3` the fetcher
    performs three sleeps — `delay * k * 1.6` for `k = 1, 2, 3` — the
    third one after the final attempt, just before returning `none`. -/
theorem c5_sleep_after_final_attempt :
    PubMedScraper._get [HttpResp.ok 503 "", HttpResp.ok 503 "", HttpResp.ok 503 ""]
        3 (7 / 10) =
      (none, [backoff (7 / 10) 1, backoff (7 / 10) 2, backoff (7 / 10) 3]) := rfl

/-- C5 (amended): the backoff slept after a retriable failure of attempt
    `k` equals `base_delay * k * 1.6` with attempt numbers starting at 1,
    and such a sleep is performed after **every** retriable failure — the
    final (`max_retries`-th) attempt included: a run of `n` straight
    retriable failures sleeps exactly `n` times. -/
theorem c5_backoff_after_every_retriable_failure :
    ∀ (d : ℚ) (n : Nat) (rs : List HttpResp),
      (∀ r ∈ rs, retriableFail r = true) → rs.length = n →
      PubMedScraper._get rs n d =
        (none, (List.range n).map (fun i => backoff d (i + 1))) := by
  intro d n rs hall hlen
  subst hlen
  rw [PubMedScraper._get, getGo_all_retriable d rs 1 hall]
  have harith : ∀ i : Nat, 1 + i = i + 1 := by omega
  simp [harith]

theorem c5_backoff_after_every_retriable_failure_witness :
    PubMedScraper._get [HttpResp.exn, HttpResp.ok 429 "x"] 2 (7 / 10) =
      (none, (List.range 2).map (fun i => backoff (7 / 10) (i + 1))) :=
  c5_backoff_after_every_retriable_failure (7 / 10) 2 [HttpResp.exn, HttpResp.ok 429 "x"]
    (by decide) (by decide)

/-! ## Lemmas about the ArXiv batch filter and search loop -/

theorem arxivScan_eq (N cLen : Nat) :
    ∀ (batch : List ArxivPaper) (seen : List String) (acc : List ArxivPaper),
      cLen + acc.length < N →
      (ArXivScraper.arxivScan N cLen batch seen acc).1 =
        acc ++ (ArXivScraper.dedupValidArxiv batch seen).take (N - cLen - acc.length) := by
  intro batch
  induction batch with
  | nil =>
    intro seen acc h
    simp [ArXivScraper.arxivScan, ArXivScraper.dedupValidArxiv]
  | cons p ps ih =>
    intro seen acc h
    by_cases hacc : (ArXivScraper._is_paper_valid p && !(seen.contains p.doi)) = true
    · simp only [ArXivScraper.arxivScan, ArXivScraper.dedupValidArxiv, hacc, if_true]
      by_cases hb : N ≤ cLen + (acc ++ [p]).length
      · rw [if_pos hb]
        have hlen : (acc ++ [p]).length = acc.length + 1 := by simp
        have hk : N - cLen - acc.length = 1 := by
          rw [hlen] at hb; omega
        have hNc : N - cLen = acc.length + 1 := by omega
        rw [hk, hNc, List.take_succ_cons, List.take_zero]
        have : (acc ++ [p]).length ≤ acc.length + 1 := by simp
        simp [List.take_of_length_le this]
      · rw [if_neg hb]
        have hlen : (acc ++ [p]).length = acc.length + 1 := by simp
        have h2 : cLen + (acc ++ [p]).length < N := by omega
        rw [ih (p.doi :: seen) (acc ++ [p]) h2]
        have hk : N - cLen - acc.length = (N - cLen - (acc ++ [p]).length) + 1 := by
          rw [hlen]; omega
        rw [hk, List.take_succ_cons]
        simp
    · have hacc' : (ArXivScraper._is_paper_valid p && !(seen.contains p.doi)) = false := by
        simpa using hacc
      simp only [ArXivScraper.arxivScan, ArXivScraper.dedupValidArxiv, hacc',
        Bool.false_eq_true, if_false]
      exact ih seen acc h

theorem arxivScan_length_le (N cLen : Nat) (hc : cLen < N)
    (batch : List ArxivPaper) (seen : List String) :
    (ArXivScraper.arxivScan N cLen batch seen []).1.length ≤ N - cLen := by
  rw [arxivScan_eq N cLen batch seen [] (by simpa using hc)]
  simp only [List.nil_append, List.length_take, List.length_nil, Nat.sub_zero]
  exact Nat.min_le_left _ _

theorem searchGo_length_le (env : AxEnv) (N : Nat) :
    ∀ (fuel start : Nat) (collected : List ArxivPaper) (seen : List String),
      collected.length ≤ N →
      (ArXivScraper.searchGo env N fuel start collected seen).1.length ≤ N := by
  intro fuel
  induction fuel with
  | zero =>
    intro start c seen h
    simpa [ArXivScraper.searchGo] using h
  | succ fuel ih =>
    intro start c seen h
    simp only [ArXivScraper.searchGo]
    by_cases hg : c.length < N
    · rw [if_pos hg]
      cases hf : env.fetch start with
      | none => simpa using h
      | some batch =>
        have hvs := arxivScan_length_le N c.length hg batch seen
        have hc1 : (c ++ (ArXivScraper.arxivScan N c.length batch seen []).1).length ≤ N := by
          simp only [List.length_append]
          omega
        by_cases he : (ArXivScraper.arxivScan N c.length batch seen []).1.isEmpty = true
        · simp only [he, if_true]
          by_cases hab : 5 * N < start + 2 * N
          · rw [if_pos hab]
            exact hc1
          · rw [if_neg hab]
            exact ih (start + 2 * N) _ _ hc1
        · simp only [he, Bool.false_eq_true, if_false]
          exact ih (start + batch.length) _ _ hc1
    · rw [if_neg hg]
      exact h

/-! ## Lemmas about the PubMed record and href loops -/

theorem addBatch_eq (N : Nat) :
    ∀ (ps : List Paper) (collected : List Paper), collected.length < N →
      PubMedScraper.addBatch N ps collected =
        collected ++
          (ps.filter (fun p => PubMedScraper._is_paper_valid p)).take (N - collected.length) := by
  intro ps
  induction ps with
  | nil => intro c h; simp [PubMedScraper.addBatch]
  | cons p ps ih =>
    intro c h
    by_cases hv : PubMedScraper._is_paper_valid p = true
    · simp only [PubMedScraper.addBatch, hv, if_true, List.filter_cons_of_pos]
      by_cases hb : N ≤ (c ++ [p]).length
      · rw [if_pos hb]
        have hlen : (c ++ [p]).length = c.length + 1 := by simp
        have hk : N - c.length = 1 := by rw [hlen] at hb; omega
        rw [hk, List.take_succ_cons, List.take_zero]
      · rw [if_neg hb]
        have hlen : (c ++ [p]).length = c.length + 1 := by simp
        have h2 : (c ++ [p]).length < N := by omega
        rw [ih (c ++ [p]) h2]
        have hk : N - c.length = (N - (c ++ [p]).length) + 1 := by rw [hlen]; omega
        rw [hk, List.take_succ_cons]
        simp
    · have hv' : PubMedScraper._is_paper_valid p = false := by simpa using hv
      have hfil : (p :: ps).filter (fun q => PubMedScraper._is_paper_valid q) =
          ps.filter (fun q => PubMedScraper._is_paper_valid q) := by
        simp [hv']
      rw [hfil]
      simp only [PubMedScraper.addBatch, hv', Bool.false_eq_true, if_false]
      exact ih c h

theorem addBatch_length_le (N : Nat) (ps c : List Paper) (h : c.length < N) :
    (PubMedScraper.addBatch N ps c).length ≤ N := by
  rw [addBatch_eq N ps c h]
  have := Nat.min_le_left (N - c.length)
    (ps.filter (fun p => PubMedScraper._is_paper_valid p)).length
  simp only [List.length_append, List.length_take]
  omega

theorem processHrefs_length_le (env : PubMedScraper.PMEnv) (N : Nat) :
    ∀ (hrefs : List String) (c : List Paper), c.length ≤ N →
      (PubMedScraper.processHrefs env N hrefs c).length ≤ N := by
  intro hrefs
  induction hrefs with
  | nil => intro c h; simpa [PubMedScraper.processHrefs] using h
  | cons href rest ih =>
    intro c h
    simp only [PubMedScraper.processHrefs]
    by_cases hg : N ≤ c.length
    · rw [if_pos hg]; exact h
    · rw [if_neg hg]
      cases hd : env.detail href with
      | none => exact ih c h
      | some txt =>
        exact ih _ (addBatch_length_le N _ c (by omega))

theorem processHrefs_stop (env : PubMedScraper.PMEnv) (N : Nat) :
    ∀ (hrefs : List String) (c : List Paper), N ≤ c.length →
      PubMedScraper.processHrefs env N hrefs c = c := by
  intro hrefs
  induction hrefs with
  | nil => intro c _; rfl
  | cons href rest _ =>
    intro c h
    simp only [PubMedScraper.processHrefs]
    rw [if_pos h]

theorem trendGo_length_le (env : PubMedScraper.PMEnv) (N : Nat) :
    ∀ (fuel page : Nat) (c : List Paper), c.length ≤ N →
      (PubMedScraper.trendGo env N fuel page c).1.length ≤ N := by
  intro fuel
  induction fuel with
  | zero => intro page c h; simpa [PubMedScraper.trendGo] using h
  | succ fuel ih =>
    intro page c h
    simp only [PubMedScraper.trendGo]
    by_cases hg : c.length < N ∧ page ≤ 20
    · rw [if_pos hg]
      cases hl : env.listing page with
      | none => simpa using h
      | some html =>
        by_cases hh : (env.hrefsOf html).isEmpty = true
        · simp only [hh, if_true]
          exact h
        · simp only [hh, Bool.false_eq_true, if_false]
          exact ih (page + 1) _ (processHrefs_length_le env N _ c h)
    · rw [if_neg hg]
      exact h

/-! ## One-step unfolding lemmas for the two harvester loops -/

theorem searchGo_step (env : AxEnv) (N fuel start : Nat) (c : List ArxivPaper)
    (seen : List String) (batch : List ArxivPaper)
    (hg : c.length < N) (hf : env.fetch start = some batch) :
    ArXivScraper.searchGo env N (fuel + 1) start c seen =
      (let vs := ArXivScraper.arxivScan N c.length batch seen []
       let c1 := c ++ vs.1
       if vs.1.isEmpty then
         if 5 * N < start + 2 * N then (c1, [start])
         else
           let r := ArXivScraper.searchGo env N fuel (start + 2 * N) c1 vs.2
           (r.1, start :: r.2)
       else
         let r := ArXivScraper.searchGo env N fuel (start + batch.length) c1 vs.2
         (r.1, start :: r.2)) := by
  simp only [ArXivScraper.searchGo]
  rw [if_pos hg, hf]

theorem searchGo_stop (env : AxEnv) (N fuel start : Nat) (c : List ArxivPaper)
    (seen : List String) (hg : ¬ c.length < N) :
    ArXivScraper.searchGo env N (fuel + 1) start c seen = (c, []) := by
  simp only [ArXivScraper.searchGo]
  rw [if_neg hg]

theorem trendGo_step (env : PubMedScraper.PMEnv) (N fuel page : Nat) (c : List Paper)
    (html : String) (hg : c.length < N ∧ page ≤ 20)
    (hl : env.listing page = some html) (hh : (env.hrefsOf html).isEmpty = false) :
    PubMedScraper.trendGo env N (fuel + 1) page c =
      (let c1 := PubMedScraper.processHrefs env N (env.hrefsOf html) c
       let r := PubMedScraper.trendGo env N fuel (page + 1) c1
       (r.1, page :: r.2)) := by
  simp only [PubMedScraper.trendGo]
  rw [if_pos hg, hl]
  simp only [hh, Bool.false_eq_true, if_false]

theorem trendGo_stop (env : PubMedScraper.PMEnv) (N fuel page : Nat) (c : List Paper)
    (hg : ¬ (c.length < N ∧ page ≤ 20)) :
    PubMedScraper.trendGo env N (fuel + 1) page c = (c, []) := by
  simp only [PubMedScraper.trendGo]
  rw [if_neg hg]

/-! ## Claim C4 -/

/-- C4: for every target count `N` and both harvesters the returned list
    never exceeds `N` records; and whenever the source supplies at least
    `N` acceptable records — for the feed source, a first batch holding at
    least `N` valid candidates with pairwise-new DOIs; for the listing
    source, a first detail page parsing to at least `N` valid records —
    the returned list has length exactly `N`.  (The embedding is total, so
    shorter-supply runs return the shorter list rather than failing.) -/
theorem c4_target_count :
    (∀ (env : AxEnv) (N : Nat), (ArXivScraper.search_papers env N).1.length ≤ N) ∧
    (∀ (env : PubMedScraper.PMEnv) (N : Nat),
        (PubMedScraper.get_trending_papers env N).1.length ≤ N) ∧
    (∀ (env : AxEnv) (N : Nat) (batch : List ArxivPaper),
        1 ≤ N → env.fetch 0 = some batch →
        N ≤ (ArXivScraper.dedupValidArxiv batch []).length →
        (ArXivScraper.search_papers env N).1.length = N) ∧
    (∀ (env : PubMedScraper.PMEnv) (N : Nat) (h href txt : String)
        (rest : List String),
        1 ≤ N → env.listing 1 = some h → env.hrefsOf h = href :: rest →
        env.detail href = some txt →
        N ≤ ((PubMedScraper._parse_medline_format txt href).filter
              (fun p => PubMedScraper._is_paper_valid p)).length →
        (PubMedScraper.get_trending_papers env N).1.length = N) := by
  refine ⟨?_, ?_, ?_, ?_⟩
  · intro env N
    exact searchGo_length_le env N (N + 4) 0 [] [] (by simp)
  · intro env N
    exact trendGo_length_le env N 21 1 [] (by simp)
  · intro env N batch hN hf hsupply
    have hscan : (ArXivScraper.arxivScan N 0 batch [] []).1 =
        (ArXivScraper.dedupValidArxiv batch []).take N := by
      rw [arxivScan_eq N 0 batch [] [] (by simpa using hN)]
      simp
    have hlen : (ArXivScraper.arxivScan N 0 batch [] []).1.length = N := by
      rw [hscan, List.length_take]
      omega
    have hne : (ArXivScraper.arxivScan N 0 batch [] []).1.isEmpty = false := by
      rw [List.isEmpty_eq_false_iff_exists_mem]
      have hpos : 0 < (ArXivScraper.arxivScan N 0 batch [] []).1.length := by omega
      rcases List.exists_mem_of_length_pos hpos with ⟨x, hx⟩
      exact ⟨x, hx⟩
    show (ArXivScraper.searchGo env N (N + 4) 0 [] []).1.length = N
    have hfuel : N + 4 = (N + 3) + 1 := by omega
    rw [hfuel, searchGo_step env N (N + 3) 0 [] [] batch (by simpa using hN) hf]
    simp only [hne, Bool.false_eq_true, if_false, List.nil_append, List.length_nil]
    have hfuel2 : N + 3 = (N + 2) + 1 := by omega
    rw [hfuel2, searchGo_stop env N (N + 2) (0 + batch.length)
      (ArXivScraper.arxivScan N 0 batch [] []).1
      (ArXivScraper.arxivScan N 0 batch [] []).2 (by omega)]
    exact hlen
  · intro env N h href txt rest hN hl hh hd hsupply
    have hfirst : PubMedScraper.addBatch N (PubMedScraper._parse_medline_format txt href) [] =
        ((PubMedScraper._parse_medline_format txt href).filter
          (fun p => PubMedScraper._is_paper_valid p)).take N := by
      rw [addBatch_eq N _ [] (by simpa using hN)]
      simp
    have hlen : (PubMedScraper.addBatch N (PubMedScraper._parse_medline_format txt href)
        []).length = N := by
      rw [hfirst, List.length_take]
      omega
    have hph : PubMedScraper.processHrefs env N (href :: rest) [] =
        PubMedScraper.addBatch N (PubMedScraper._parse_medline_format txt href) [] := by
      simp only [PubMedScraper.processHrefs]
      rw [if_neg (by simp; omega), hd]
      exact processHrefs_stop env N rest _ (by omega)
    show (PubMedScraper.trendGo env N 21 1 []).1.length = N
    have hfuel : (21 : Nat) = 20 + 1 := by omega
    rw [hfuel, trendGo_step env N 20 1 [] h ⟨by simpa using hN, by omega⟩ hl (by simp [hh])]
    simp only [hh, hph]
    have hfuel2 : (20 : Nat) = 19 + 1 := by omega
    rw [hfuel2, trendGo_stop env N 19 (1 + 1) _ (by simp [hlen])]
    exact hlen

theorem c4_target_count_witness :
    (ArXivScraper.search_papers envAxOne 1).1.length ≤ 1 ∧
    (PubMedScraper.get_trending_papers envOne 1).1.length ≤ 1 ∧
    (ArXivScraper.search_papers envAxOne 1).1.length = 1 ∧
    (PubMedScraper.get_trending_papers envOne 1).1.length = 1 :=
  ⟨c4_target_count.1 envAxOne 1, c4_target_count.2.1 envOne 1,
    c4_target_count.2.2.1 envAxOne 1 [axGood] (by decide) (by decide) (by decide),
    c4_target_count.2.2.2 envOne 1 "H" "/3/" medGoodZ [] (by decide) (by decide)
      (by decide) (by decide) (by decide)⟩

/-! ## Claim C6 -/

theorem searchGo_trace_head (env : AxEnv) (N fuel start : Nat) (c : List ArxivPaper)
    (seen : List String) (hg : c.length < N) :
    ((ArXivScraper.searchGo env N (fuel + 1) start c seen).2).take 1 = [start] := by
  simp only [ArXivScraper.searchGo]
  rw [if_pos hg]
  cases env.fetch start with
  | none => rfl
  | some batch =>
    by_cases he : (ArXivScraper.arxivScan N c.length batch seen []).1.isEmpty = true
    · simp only [he, if_true]
      by_cases hab : 5 * N < start + 2 * N
      · rw [if_pos hab]
        rfl
      · rw [if_neg hab]
        simp
    · simp only [he, Bool.false_eq_true, if_false]
      simp

/-- C6: the claim states the harvester aborts as soon as `start_index`
    exceeds `5 * target_count`, returning what was collected so far.  In
    `envCont` with target 2 the first batch (12 raw candidates, 1
    accepted) advances `start_index` to `12 > 10 = 5 * 2`, yet the run
    issues another request at start 12 and returns 2 papers instead of the
    1 collected when the bound was crossed: the bound is only checked in
    the zero-accept branch. -/
theorem c6_continues_past_search_bound :
    (ArXivScraper.search_papers envCont 2).2 = [0, 12] ∧
    (ArXivScraper.search_papers envCont 2).1.length = 2 := by decide

/-- C6 (amended): after a batch with zero accepted candidates
    `start_index` advances by `batch_size = 2 * target_count` (the next
    request uses it, provided the advanced index is within the bound);
    after a batch with at least one accepted candidate it advances by the
    number of raw candidates parsed; and the run aborts — returning what
    was collected — only when a batch accepts zero candidates **and** the
    advanced index exceeds `5 * target_count`. -/
theorem c6_pagination_advance :
    (∀ (env : AxEnv) (N fuel start : Nat) (c : List ArxivPaper) (seen : List String)
        (batch : List ArxivPaper),
        c.length < N → env.fetch start = some batch →
        (ArXivScraper.arxivScan N c.length batch seen []).1 = [] →
        start + 2 * N ≤ 5 * N →
        ((ArXivScraper.searchGo env N (fuel + 2) start c seen).2).take 2 =
          [start, start + 2 * N]) ∧
    (∀ (env : AxEnv) (N fuel start : Nat) (c : List ArxivPaper) (seen : List String)
        (batch : List ArxivPaper),
        c.length < N → env.fetch start = some batch →
        (ArXivScraper.arxivScan N c.length batch seen []).1 ≠ [] →
        (c ++ (ArXivScraper.arxivScan N c.length batch seen []).1).length < N →
        ((ArXivScraper.searchGo env N (fuel + 2) start c seen).2).take 2 =
          [start, start + batch.length]) ∧
    (∀ (env : AxEnv) (N fuel start : Nat) (c : List ArxivPaper) (seen : List String)
        (batch : List ArxivPaper),
        c.length < N → env.fetch start = some batch →
        (ArXivScraper.arxivScan N c.length batch seen []).1 = [] →
        5 * N < start + 2 * N →
        ArXivScraper.searchGo env N (fuel + 1) start c seen = (c, [start])) := by
  refine ⟨?_, ?_, ?_⟩
  · intro env N fuel start c seen batch hg hf hzero hbound
    rw [show fuel + 2 = (fuel + 1) + 1 from rfl,
      searchGo_step env N (fuel + 1) start c seen batch hg hf]
    simp only [hzero, List.isEmpty_nil, if_true, List.append_nil]
    rw [if_neg (by omega)]
    simp only [List.take_succ_cons]
    rw [searchGo_trace_head env N fuel (start + 2 * N) c _ hg]
  · intro env N fuel start c seen batch hg hf hne hlt
    rw [show fuel + 2 = (fuel + 1) + 1 from rfl,
      searchGo_step env N (fuel + 1) start c seen batch hg hf]
    have he : (ArXivScraper.arxivScan N c.length batch seen []).1.isEmpty = false := by
      simpa [List.isEmpty_iff] using hne
    simp only [he, Bool.false_eq_true, if_false]
    simp only [List.take_succ_cons]
    rw [searchGo_trace_head env N fuel (start + batch.length) _ _ hlt]
  · intro env N fuel start c seen batch hg hf hzero hbound
    rw [searchGo_step env N fuel start c seen batch hg hf]
    simp only [hzero, List.isEmpty_nil, if_true, List.append_nil]
    rw [if_pos hbound]

theorem c6_pagination_advance_witness :
    ((ArXivScraper.searchGo envEmptyBatches 1 3 0 [] []).2).take 2 = [0, 0 + 2 * 1] ∧
    ((ArXivScraper.searchGo envCont 2 4 0 [] []).2).take 2 =
      [0, 0 + (axGood :: List.replicate 11 axBad).length] ∧
    ArXivScraper.searchGo envEmptyBatches 1 1 4 [] [] = ([], [4]) :=
  ⟨c6_pagination_advance.1 envEmptyBatches 1 1 0 [] [] [] (by decide) (by decide)
      (by decide) (by decide),
    c6_pagination_advance.2.1 envCont 2 2 0 [] [] (axGood :: List.replicate 11 axBad)
      (by decide) (by decide) (by decide) (by decide),
    c6_pagination_advance.2.2 envEmptyBatches 1 0 4 [] [] [] (by decide) (by decide)
      (by decide) (by decide)⟩

/-! ## Claim C8 -/

theorem trendGo_trace (env : PubMedScraper.PMEnv) (N : Nat) :
    ∀ (fuel page : Nat) (c : List Paper) (p : Nat),
      p ∈ (PubMedScraper.trendGo env N fuel page c).2 →
      page ≤ p ∧ p ≤ 20 ∧
        ∀ q, page ≤ q → q < p → ∃ h, env.listing q = some h ∧ env.hrefsOf h ≠ [] := by
  intro fuel
  induction fuel with
  | zero =>
    intro page c p hp
    simp [PubMedScraper.trendGo] at hp
  | succ fuel ih =>
    intro page c p hp
    by_cases hg : c.length < N ∧ page ≤ 20
    · simp only [PubMedScraper.trendGo, if_pos hg] at hp
      cases hl : env.listing page with
      | none =>
        rw [hl] at hp
        simp at hp
        subst hp
        exact ⟨Nat.le_refl _, hg.2, fun q hq1 hq2 => absurd (Nat.lt_of_le_of_lt hq1 hq2)
          (Nat.lt_irrefl _)⟩
      | some html =>
        rw [hl] at hp
        by_cases hh : (env.hrefsOf html).isEmpty = true
        · simp only [hh, if_true] at hp
          simp at hp
          subst hp
          exact ⟨Nat.le_refl _, hg.2, fun q hq1 hq2 => absurd (Nat.lt_of_le_of_lt hq1 hq2)
            (Nat.lt_irrefl _)⟩
        · simp only [hh, Bool.false_eq_true, if_false] at hp
          simp only [List.mem_cons] at hp
          cases hp with
          | inl hp =>
            subst hp
            exact ⟨Nat.le_refl _, hg.2, fun q hq1 hq2 => absurd (Nat.lt_of_le_of_lt hq1 hq2)
              (Nat.lt_irrefl _)⟩
          | inr hp =>
            obtain ⟨h1, h2, h3⟩ := ih (page + 1) _ p hp
            refine ⟨by omega, h2, fun q hq1 hq2 => ?_⟩
            rcases Nat.eq_or_lt_of_le hq1 with hq | hq
            · refine ⟨html, hq ▸ hl, fun hnil => ?_⟩
              rw [hnil] at hh
              simp at hh
            · exact h3 q (by omega) hq2
    · simp only [PubMedScraper.trendGo, if_neg hg] at hp
      simp at hp

/-- C8: the listing harvester never fetches a listing page numbered above
    the hard ceiling of 20; every page before a fetched page was itself
    fetched successfully with a non-empty link extraction (so an empty
    extraction — and only that, not a zero-valid-record page — cuts
    pagination short); and in `envZero`, whose page 1 yields a link but
    zero valid records, page 2 is still fetched. -/
theorem c8_page_ceiling :
    (∀ (env : PubMedScraper.PMEnv) (N p : Nat),
        p ∈ (PubMedScraper.get_trending_papers env N).2 → p ≤ 20) ∧
    (∀ (env : PubMedScraper.PMEnv) (N p q : Nat),
        p ∈ (PubMedScraper.get_trending_papers env N).2 → 1 ≤ q → q < p →
        ∃ h, env.listing q = some h ∧ env.hrefsOf h ≠ []) ∧
    ((PubMedScraper.get_trending_papers envZero 1).2 = [1, 2] ∧
      PubMedScraper.addBatch 1 (PubMedScraper._parse_medline_format medNoDoi "/1/") [] =
        []) := by
  refine ⟨?_, ?_, by decide⟩
  · intro env N p hp
    exact (trendGo_trace env N 21 1 [] p hp).2.1
  · intro env N p q hp hq1 hq2
    exact (trendGo_trace env N 21 1 [] p hp).2.2 q hq1 hq2

theorem c8_page_ceiling_witness :
    (2 : Nat) ≤ 20 ∧
    (∃ h, envZero.listing 1 = some h ∧ envZero.hrefsOf h ≠ []) ∧
    (PubMedScraper.get_trending_papers envZero 1).2 = [1, 2] :=
  ⟨c8_page_ceiling.1 envZero 1 2 (by decide),
    c8_page_ceiling.2.1 envZero 1 2 1 (by decide) (by decide) (by decide),
    c8_page_ceiling.2.2.1⟩

/-! ## Claim C10 -/

theorem addBatch_mem (N : Nat) :
    ∀ (ps c : List Paper) (p : Paper), p ∈ PubMedScraper.addBatch N ps c →
      p ∈ c ∨ PubMedScraper._is_paper_valid p = true := by
  intro ps
  induction ps with
  | nil =>
    intro c p hp
    exact Or.inl hp
  | cons q ps ih =>
    intro c p hp
    by_cases hv : PubMedScraper._is_paper_valid q = true
    · simp only [PubMedScraper.addBatch, hv, if_true] at hp
      by_cases hb : N ≤ (c ++ [q]).length
      · rw [if_pos hb] at hp
        rcases List.mem_append.mp hp with h | h
        · exact Or.inl h
        · simp at h
          subst h
          exact Or.inr hv
      · rw [if_neg hb] at hp
        rcases ih (c ++ [q]) p hp with h | h
        · rcases List.mem_append.mp h with h' | h'
          · exact Or.inl h'
          · simp at h'
            subst h'
            exact Or.inr hv
        · exact Or.inr h
    · have hv' : PubMedScraper._is_paper_valid q = false := by simpa using hv
      simp only [PubMedScraper.addBatch, hv', Bool.false_eq_true, if_false] at hp
      exact ih c p hp

theorem processHrefs_mem (env : PubMedScraper.PMEnv) (N : Nat) :
    ∀ (hrefs : List String) (c : List Paper) (p : Paper),
      p ∈ PubMedScraper.processHrefs env N hrefs c →
      p ∈ c ∨ PubMedScraper._is_paper_valid p = true := by
  intro hrefs
  induction hrefs with
  | nil =>
    intro c p hp
    exact Or.inl hp
  | cons href rest ih =>
    intro c p hp
    simp only [PubMedScraper.processHrefs] at hp
    by_cases hg : N ≤ c.length
    · rw [if_pos hg] at hp
      exact Or.inl hp
    · rw [if_neg hg] at hp
      cases hd : env.detail href with
      | none =>
        rw [hd] at hp
        exact ih c p hp
      | some txt =>
        rw [hd] at hp
        rcases ih _ p hp with h | h
        · exact addBatch_mem N _ c p h
        · exact Or.inr h

theorem trendGo_mem (env : PubMedScraper.PMEnv) (N : Nat) :
    ∀ (fuel page : Nat) (c : List Paper) (p : Paper),
      p ∈ (PubMedScraper.trendGo env N fuel page c).1 →
      p ∈ c ∨ PubMedScraper._is_paper_valid p = true := by
  intro fuel
  induction fuel with
  | zero =>
    intro page c p hp
    exact Or.inl hp
  | succ fuel ih =>
    intro page c p hp
    by_cases hg : c.length < N ∧ page ≤ 20
    · simp only [PubMedScraper.trendGo, if_pos hg] at hp
      cases hl : env.listing page with
      | none =>
        rw [hl] at hp
        exact Or.inl hp
      | some html =>
        rw [hl] at hp
        by_cases hh : (env.hrefsOf html).isEmpty = true
        · simp only [hh, if_true] at hp
          exact Or.inl hp
        · simp only [hh, Bool.false_eq_true, if_false] at hp
          rcases ih (page + 1) _ p hp with h | h
          · exact processHrefs_mem env N _ c p h
          · exact Or.inr h
    · simp only [PubMedScraper.trendGo, if_neg hg] at hp
      exact Or.inl hp

/-- C10: every record the listing harvester emits passed the validator,
    whose required fields include `doi`, so its DOI is non-blank after
    trimming; and a finalized record whose text body produced no embedded
    DOI (`current` has no `doi` key) is always rejected by the validator,
    regardless of its non-empty numeric `pmid` fallback. -/
theorem c10_doi_required :
    (∀ (env : PubMedScraper.PMEnv) (N : Nat) (p : Paper),
        p ∈ (PubMedScraper.get_trending_papers env N).1 → ¬ pyStrip p.doi = "") ∧
    (∀ cur : MedCur, cur.doi = none →
        PubMedScraper._is_paper_valid (PubMedScraper._finalize_paper cur) = false) := by
  constructor
  · intro env N p hp
    rcases trendGo_mem env N 21 1 [] p hp with h | h
    · simp at h
    · simp only [PubMedScraper._is_paper_valid, Bool.and_eq_true, Bool.not_eq_true',
        decide_eq_false_iff_not] at h
      exact h.1.1.1.1.1
  · intro cur hdoi
    have hd : (PubMedScraper._finalize_paper cur).doi = "" := by
      simp [PubMedScraper._finalize_paper, hdoi]
    simp [PubMedScraper._is_paper_valid, hd, show pyStrip "" = "" from rfl]

theorem c10_doi_required_witness :
    ¬ pyStrip paperZ.doi = "" ∧
    PubMedScraper._is_paper_valid (PubMedScraper._finalize_paper {}) = false :=
  ⟨c10_doi_required.1 envOne 1 paperZ (by decide), c10_doi_required.2 {} rfl⟩

/-! ## Claim C9 -/

theorem drop_takeWhile_length (p : Char → Bool) :
    ∀ l : List Char, l.drop (l.takeWhile p).length = l.dropWhile p := by
  intro l
  induction l with
  | nil => rfl
  | cons c cs ih =>
    by_cases hc : p c = true
    · simp [List.takeWhile_cons, List.dropWhile_cons, hc, ih]
    · simp [List.takeWhile_cons, List.dropWhile_cons, hc]

theorem numSegCheck_eq (r1 out : List Char)
    (h : PubMedScraper.numSegCheck r1 = some out) : out = r1 := by
  unfold PubMedScraper.numSegCheck at h
  by_cases hds : (r1.takeWhile isDigitChar).isEmpty = true
  · rw [if_pos hds] at h
    exact absurd h (by simp)
  · rw [if_neg hds] at h
    by_cases hh : (r1.drop (r1.takeWhile isDigitChar).length).head? = some '/'
    · rw [if_pos hh] at h
      injection h with h'
      exact h'.symm
    · rw [if_neg hh] at h
      exact absurd h (by simp)

theorem numSegCheck_structure (r1 out : List Char)
    (h : PubMedScraper.numSegCheck r1 = some out) :
    ∃ ds rest2, ds ≠ [] ∧ (∀ ch ∈ ds, isDigitChar ch = true) ∧
      out = ds ++ '/' :: rest2 := by
  have hout := numSegCheck_eq r1 out h
  subst hout
  unfold PubMedScraper.numSegCheck at h
  by_cases hds : (out.takeWhile isDigitChar).isEmpty = true
  · rw [if_pos hds] at h
    exact absurd h (by simp)
  · rw [if_neg hds] at h
    by_cases hh : (out.drop (out.takeWhile isDigitChar).length).head? = some '/'
    · rw [drop_takeWhile_length] at hh
      cases hrest : out.dropWhile isDigitChar with
      | nil =>
        rw [hrest] at hh
        exact absurd hh (by simp)
      | cons x xs =>
        rw [hrest] at hh
        have hx : x = '/' := by simpa using hh
        refine ⟨out.takeWhile isDigitChar, xs, by simpa using hds, ?_, ?_⟩
        · intro ch hch
          exact List.mem_takeWhile_imp hch
        · rw [← hx, ← hrest]
          exact (List.takeWhile_append_dropWhile isDigitChar out).symm
    · rw [drop_takeWhile_length] at hh
      rw [if_neg (by rw [drop_takeWhile_length]; exact hh)] at h
      exact absurd h (by simp)

theorem numSegTail_cases (h2 out : List Char)
    (h : PubMedScraper.numSegTail h2 = some out) :
    out = h2.reverse ∨ (h2.reverse.head? = some '/' ∧ out = h2.reverse.tail) := by
  unfold PubMedScraper.numSegTail at h
  by_cases hhead : h2.reverse.head? = some '/'
  · rw [if_pos hhead] at h
    exact Or.inr ⟨hhead, numSegCheck_eq _ _ h⟩
  · rw [if_neg hhead] at h
    exact Or.inl (numSegCheck_eq _ _ h)

theorem numSegTail_structure (h2 out : List Char)
    (h : PubMedScraper.numSegTail h2 = some out) :
    ∃ ds rest2, ds ≠ [] ∧ (∀ ch ∈ ds, isDigitChar ch = true) ∧
      out = ds ++ '/' :: rest2 := by
  unfold PubMedScraper.numSegTail at h
  exact numSegCheck_structure _ _ h

theorem numSegTail_subset (h2 out : List Char)
    (h : PubMedScraper.numSegTail h2 = some out) : ∀ c ∈ out, c ∈ h2 := by
  intro c hc
  rcases numSegTail_cases h2 out h with hr | ⟨_, hr⟩
  · exact List.mem_reverse.mp (hr ▸ hc)
  · rw [hr] at hc
    cases hrev : h2.reverse with
    | nil =>
      rw [hrev] at hc
      simp at hc
    | cons y ys =>
      rw [hrev] at hc
      have : c ∈ h2.reverse := by
        rw [hrev]
        exact List.mem_cons_of_mem y hc
      exact List.mem_reverse.mp this

theorem numSegTail_getLast (h2 out t : List Char) (ht : h2 = '/' :: t)
    (h : PubMedScraper.numSegTail h2 = some out) (hne : out ≠ []) :
    out.getLast? = some '/' := by
  have hr : h2.reverse = t.reverse ++ ['/'] := by rw [ht]; simp
  rcases numSegTail_cases h2 out h with hout | ⟨_, hout⟩
  · rw [hout, hr]
    simp [List.getLast?_concat]
  · cases htr : t.reverse with
    | nil =>
      rw [hout, hr, htr] at hne
      simp at hne
    | cons u us =>
      rw [hout, hr, htr]
      simp [List.getLast?_concat]

theorem ensureLeadSlash_head (l : List Char) :
    ∃ t, PubMedScraper.ensureLeadSlash l = '/' :: t := by
  unfold PubMedScraper.ensureLeadSlash
  by_cases h : startsWithC ['/'] l = true
  · rw [if_pos h]
    cases l with
    | nil => simp [startsWithC] at h
    | cons c cs =>
      have hc : c = '/' := by
        simp [startsWithC] at h
        exact h.symm
      exact ⟨cs, by rw [hc]⟩
  · rw [if_neg h]
    exact ⟨l, rfl⟩

theorem ensureLeadSlash_sub (l : List Char) :
    ∀ c ∈ PubMedScraper.ensureLeadSlash l, c = '/' ∨ c ∈ l := by
  unfold PubMedScraper.ensureLeadSlash
  by_cases h : startsWithC ['/'] l = true
  · rw [if_pos h]
    intro c hc
    exact Or.inr hc
  · rw [if_neg h]
    intro c hc
    exact List.mem_cons.mp hc

theorem beforeQuery_no_query (l : List Char) :
    ∀ c ∈ PubMedScraper.beforeQuery l, ¬ c = '?' := by
  intro c hc
  have := List.mem_takeWhile_imp hc
  simpa using this

theorem normalizeHref_spec (a href : String)
    (h : PubMedScraper.normalizeHref a = some href) :
    (¬ '?' ∈ href.data) ∧ href.data.head? = some '/' ∧
      ∃ ds pre, ds ≠ [] ∧ (∀ ch ∈ ds, isDigitChar ch = true) ∧
        href.data = pre ++ '/' :: (ds ++ ['/']) := by
  unfold PubMedScraper.normalizeHref at h
  by_cases hemp : (trimC a.data).isEmpty = true
  · simp [hemp] at h
  · simp only [hemp, Bool.false_eq_true, if_false] at h
    cases hns : PubMedScraper.numSegTail
        (PubMedScraper.ensureLeadSlash (PubMedScraper.beforeQuery (trimC a.data))) with
    | none => rw [hns] at h; exact absurd h (by simp)
    | some r1 =>
      rw [hns] at h
      have hhref : href = String.mk (r1.reverse ++ ['/']) := by
        injection h with h'
        exact h'.symm
      obtain ⟨ds, rest2, hdne, hdig, hr1⟩ := numSegTail_structure _ _ hns
      obtain ⟨t, ht⟩ := ensureLeadSlash_head (PubMedScraper.beforeQuery (trimC a.data))
      have hr1ne : r1 ≠ [] := by rw [hr1]; simp
      have hlast : r1.getLast? = some '/' := numSegTail_getLast _ _ t ht hns hr1ne
      subst hhref
      refine ⟨?_, ?_, ds.reverse, rest2.reverse, by simpa using hdne,
        fun ch hch => hdig ch (List.mem_reverse.mp hch), ?_⟩
      · intro hq
        rcases List.mem_append.mp hq with hq | hq
        · have hmem := numSegTail_subset _ _ hns '?' (List.mem_reverse.mp hq)
          rcases ensureLeadSlash_sub _ '?' hmem with h' | h'
          · simp at h'
          · exact beforeQuery_no_query _ '?' h' rfl
        · simp at hq
      · have hrev : r1.reverse ≠ [] := by simpa using hr1ne
        cases hc : r1.reverse with
        | nil => exact absurd hc hrev
        | cons c cs =>
          have hcl : r1.getLast? = some c := by
            rw [← List.head?_reverse, hc]
            rfl
          rw [hlast] at hcl
          injection hcl with hcv
          show ((c :: cs) ++ ['/']).head? = some '/'
          rw [List.cons_append, List.head?_cons, ← hcv]
      · show r1.reverse ++ ['/'] = rest2.reverse ++ '/' :: (ds.reverse ++ ['/'])
        rw [hr1]
        simp

/-- C9: the claim states every returned href has its query string
    stripped, **exactly one** leading and one trailing slash, and a fully
    numeric final segment.  The code only prepends a `/` when one is
    missing: the anchor `"//31916282/"` is returned unchanged with two
    leading slashes. -/
theorem c9_double_leading_slash :
    PubMedScraper._extract_hrefs_from_page ["//31916282/"] = ["//31916282/"] ∧
    PubMedScraper.leadingSlashes "//31916282/" = 2 := by decide

/-- C9 (amended): every returned href contains no `?` (query stripped),
    starts with a slash (**at least** one — a `/` is prepended only when
    missing, existing extra slashes are kept), and ends with
    `/<digits>/` — a non-empty, fully numeric final path segment closed
    by exactly one trailing slash; `"/31916282/?foo=1"` normalizes to
    `"/31916282/"` and the non-numeric `"/abc/"` is discarded. -/
theorem c9_href_normalization :
    (∀ (anchors : List String) (href : String),
        href ∈ PubMedScraper._extract_hrefs_from_page anchors →
        (¬ '?' ∈ href.data) ∧ href.data.head? = some '/' ∧
          ∃ ds pre, ds ≠ [] ∧ (∀ ch ∈ ds, isDigitChar ch = true) ∧
            href.data = pre ++ '/' :: (ds ++ ['/'])) ∧
    PubMedScraper._extract_hrefs_from_page ["/31916282/?foo=1"] = ["/31916282/"] ∧
    PubMedScraper._extract_hrefs_from_page ["/abc/"] = [] := by
  refine ⟨?_, by decide, by decide⟩
  intro anchors href hmem
  obtain ⟨a, _, ha⟩ := List.mem_filterMap.mp hmem
  exact normalizeHref_spec a href ha

/-! ## Claim C7: digit, split and tokenizer lemmas -/

theorem charToDigit_digitChar (k : Nat) (h : k < 10) :
    charToDigit (Nat.digitChar k) = k := by
  interval_cases k <;> rfl

theorem isDigitChar_digitChar (k : Nat) (h : k < 10) :
    isDigitChar (Nat.digitChar k) = true := by
  interval_cases k <;> rfl

theorem natDigitsAux_digits :
    ∀ (fuel n : Nat), ∀ c ∈ natDigitsAux n fuel, isDigitChar c = true := by
  intro fuel
  induction fuel with
  | zero =>
    intro n c hc
    simp [natDigitsAux] at hc
  | succ fuel ih =>
    intro n c hc
    by_cases hn : n = 0
    · simp [natDigitsAux, hn] at hc
    · rw [natDigitsAux, if_neg hn] at hc
      rcases List.mem_append.mp hc with h' | h'
      · exact ih (n / 10) c h'
      · simp at h'
        subst h'
        exact isDigitChar_digitChar (n % 10) (Nat.mod_lt n (by omega))

theorem digitsVal_append_digit (l : List Char) (c : Char) :
    digitsVal (l ++ [c]) = digitsVal l * 10 + charToDigit c := by
  simp [digitsVal, List.foldl_append]

theorem digitsVal_natDigitsAux :
    ∀ (fuel n : Nat), n ≤ fuel → digitsVal (natDigitsAux n fuel) = n := by
  intro fuel
  induction fuel with
  | zero =>
    intro n h
    interval_cases n
    rfl
  | succ fuel ih =>
    intro n h
    by_cases hn : n = 0
    · simp [natDigitsAux, hn, digitsVal]
    · rw [natDigitsAux, if_neg hn, digitsVal_append_digit]
      have hdivle : n / 10 ≤ fuel := by
        have := Nat.div_lt_self (by omega : 0 < n) (by omega : 1 < 10)
        omega
      rw [ih (n / 10) hdivle, charToDigit_digitChar (n % 10) (Nat.mod_lt n (by omega))]
      omega

theorem digitsVal_natDigitsBE (n : Nat) : digitsVal (natDigitsBE n) = n :=
  digitsVal_natDigitsAux n n (Nat.le_refl n)

theorem natDigitsAux_length :
    ∀ (fuel n k : Nat), n < 10 ^ k → (natDigitsAux n fuel).length ≤ k := by
  intro fuel
  induction fuel with
  | zero =>
    intro n k _
    simp [natDigitsAux]
  | succ fuel ih =>
    intro n k h
    by_cases hn : n = 0
    · simp [natDigitsAux, hn]
    · rw [natDigitsAux, if_neg hn]
      simp only [List.length_append, List.length_cons, List.length_nil]
      have hk : k ≠ 0 := by
        intro h0
        subst h0
        simp at h
        omega
      obtain ⟨k', rfl⟩ : ∃ k', k = k' + 1 := ⟨k - 1, by omega⟩
      have hdiv : n / 10 < 10 ^ k' := by
        rw [Nat.div_lt_iff_lt_mul (by norm_num)]
        calc n < 10 ^ (k' + 1) := h
        _ = 10 ^ k' * 10 := by ring
      have := ih (n / 10) k' hdiv
      omega

theorem digitsVal_replicate_zero (j : Nat) (l : List Char) :
    digitsVal (List.replicate j '0' ++ l) = digitsVal l := by
  induction j with
  | zero => simp
  | succ j ih =>
    have h0 : (0 : Nat) * 10 + charToDigit '0' = 0 := by decide
    simp only [List.replicate_succ, List.cons_append, digitsVal, List.foldl_cons, h0]
    simpa only [digitsVal] using ih

theorem digitsVal_pad2 (n : Nat) : digitsVal (pad2 n) = n := by
  rw [pad2, digitsVal_replicate_zero, digitsVal_natDigitsBE]

theorem digitsVal_pad4 (n : Nat) : digitsVal (pad4 n) = n := by
  rw [pad4, digitsVal_replicate_zero, digitsVal_natDigitsBE]

theorem pad2_length (n : Nat) (h : n < 100) : (pad2 n).length = 2 := by
  have hle : (natDigitsAux n n).length ≤ 2 := natDigitsAux_length n n 2 (by simpa using h)
  simp only [pad2, natDigitsBE, List.length_append, List.length_replicate]
  omega

theorem pad4_length (n : Nat) (h : n < 10000) : (pad4 n).length = 4 := by
  have hle : (natDigitsAux n n).length ≤ 4 := natDigitsAux_length n n 4 (by simpa using h)
  simp only [pad4, natDigitsBE, List.length_append, List.length_replicate]
  omega

theorem pad2_digits (n : Nat) : ∀ c ∈ pad2 n, isDigitChar c = true := by
  intro c hc
  rw [pad2] at hc
  rcases List.mem_append.mp hc with h | h
  · rw [List.eq_of_mem_replicate h]
    rfl
  · exact natDigitsAux_digits n n c h

theorem pad4_digits (n : Nat) : ∀ c ∈ pad4 n, isDigitChar c = true := by
  intro c hc
  rw [pad4] at hc
  rcases List.mem_append.mp hc with h | h
  · rw [List.eq_of_mem_replicate h]
    rfl
  · exact natDigitsAux_digits n n c h

theorem splitGo_no_sep (sep : Char) :
    ∀ (w l cur : List Char), (∀ c ∈ w, ¬ c = sep) →
      splitGo sep (w ++ l) cur = splitGo sep l (w.reverse ++ cur) := by
  intro w
  induction w with
  | nil =>
    intro l cur _
    simp
  | cons c w ih =>
    intro l cur hw
    have hc : ¬ c = sep := hw c (by simp)
    simp only [List.cons_append, splitGo, if_neg hc]
    show splitGo sep (w ++ l) (c :: cur) = splitGo sep l ((c :: w).reverse ++ cur)
    rw [ih l (c :: cur) (fun x hx => hw x (by simp [hx]))]
    simp

theorem splitGo_sep_cons (sep : Char) (l cur : List Char) :
    splitGo sep (sep :: l) cur = cur.reverse :: splitGo sep l [] := by
  simp [splitGo]

theorem splitOnC_three (sep : Char) (a b c : List Char)
    (ha : ∀ x ∈ a, ¬ x = sep) (hb : ∀ x ∈ b, ¬ x = sep) (hc : ∀ x ∈ c, ¬ x = sep) :
    splitOnC sep (a ++ sep :: (b ++ sep :: c)) = [a, b, c] := by
  have h3 : splitGo sep c [] = [c] := by
    have h := splitGo_no_sep sep c [] [] hc
    simp only [List.append_nil] at h
    rw [h]
    simp [splitGo]
  rw [splitOnC, splitGo_no_sep sep a _ [] ha, splitGo_sep_cons,
    splitGo_no_sep sep b _ [] hb, splitGo_sep_cons, h3]
  simp

theorem tokGo_no_ws :
    ∀ (w l cur : List Char), (∀ c ∈ w, isPySpace c = false) →
      tokGo (w ++ l) cur = tokGo l (w.reverse ++ cur) := by
  intro w
  induction w with
  | nil =>
    intro l cur _
    simp
  | cons c w ih =>
    intro l cur hw
    have hc : isPySpace c = false := hw c (by simp)
    simp only [List.cons_append, tokGo, hc, Bool.false_eq_true, if_false]
    show tokGo (w ++ l) (c :: cur) = tokGo l ((c :: w).reverse ++ cur)
    rw [ih l (c :: cur) (fun x hx => hw x (by simp [hx]))]
    simp

theorem tokGo_ws_cons (l : List Char) (x : Char) (cur : List Char) :
    tokGo (' ' :: l) (x :: cur) = (x :: cur).reverse :: tokGo l [] := by
  simp [tokGo, isPySpace]

theorem tokenizeWS_three (w1 w2 w3 : List Char)
    (h1 : ∀ c ∈ w1, isPySpace c = false) (h2 : ∀ c ∈ w2, isPySpace c = false)
    (h3 : ∀ c ∈ w3, isPySpace c = false)
    (hn1 : w1 ≠ []) (hn2 : w2 ≠ []) (hn3 : w3 ≠ []) :
    tokenizeWS (w1 ++ ' ' :: (w2 ++ ' ' :: w3)) = [w1, w2, w3] := by
  rw [tokenizeWS, tokGo_no_ws w1 _ [] h1, List.append_nil]
  cases hrev1 : w1.reverse with
  | nil => exact absurd (by simpa using hrev1) hn1
  | cons x1 c1 =>
    rw [tokGo_ws_cons, ← hrev1, List.reverse_reverse]
    rw [tokGo_no_ws w2 _ [] h2, List.append_nil]
    cases hrev2 : w2.reverse with
    | nil => exact absurd (by simpa using hrev2) hn2
    | cons x2 c2 =>
      rw [tokGo_ws_cons, ← hrev2, List.reverse_reverse]
      have hw3 : tokGo w3 [] = [w3] := by
        have h := tokGo_no_ws w3 [] [] h3
        simp only [List.append_nil] at h
        rw [h]
        cases hrev3 : w3.reverse with
        | nil => exact absurd (by simpa using hrev3) hn3
        | cons x3 c3 =>
          rw [show tokGo [] (x3 :: c3) = [(x3 :: c3).reverse] from by simp [tokGo]]
          rw [← hrev3, List.reverse_reverse]
      rw [hw3]

theorem trimC_wrap (a b : Char) (l : List Char)
    (ha : isPySpace a = false) (hb : isPySpace b = false) :
    trimC (a :: (l ++ [b])) = a :: (l ++ [b]) := by
  unfold trimC
  rw [List.dropWhile_cons_of_neg (by simp [ha])]
  rw [show (a :: (l ++ [b])).reverse = b :: (l.reverse ++ [a]) from by simp]
  rw [List.dropWhile_cons_of_neg (by simp [hb])]
  simp

theorem daysInMonth_le_31 (y m : Nat) : daysInMonth y m ≤ 31 := by
  unfold daysInMonth
  split_ifs <;> omega

theorem parseYMD_render (y m d : Nat) (hy1 : 1 ≤ y) (hy2 : y ≤ 9999)
    (hm1 : 1 ≤ m) (hm2 : m ≤ 12) (hd1 : 1 ≤ d) (hd2 : d ≤ daysInMonth y m) :
    parseYMD (pad4 y ++ '-' :: (pad2 m ++ '-' :: pad2 d)) = some (y, m, d) := by
  have hy : y < 10000 := by omega
  have hm : m < 100 := by omega
  have hd : d < 100 := by
    have := daysInMonth_le_31 y m
    omega
  have hnd : ∀ n : Nat, ∀ x ∈ pad2 n, ¬ x = '-' := by
    intro n x hx he
    have := pad2_digits n x hx
    rw [he] at this
    exact absurd this (by decide)
  have hnd4 : ∀ x ∈ pad4 y, ¬ x = '-' := by
    intro x hx he
    have := pad4_digits y x hx
    rw [he] at this
    exact absurd this (by decide)
  have hsplit := splitOnC_three '-' (pad4 y) (pad2 m) (pad2 d) hnd4 (hnd m) (hnd d)
  unfold parseYMD
  rw [hsplit]
  dsimp only
  have hall2 : ∀ n : Nat, allDigits (pad2 n) = true := by
    intro n
    rw [allDigits, List.all_eq_true]
    intro c hc
    simpa using pad2_digits n c hc
  have hall4 : allDigits (pad4 y) = true := by
    rw [allDigits, List.all_eq_true]
    intro c hc
    simpa using pad4_digits y c hc
  rw [if_pos ⟨pad4_length y hy, hall4, Or.inr (pad2_length m hm), hall2 m,
    Or.inr (pad2_length d hd), hall2 d⟩]
  rw [digitsVal_pad4, digitsVal_pad2, digitsVal_pad2]
  rw [if_pos ⟨hy1, hm1, hm2, hd1, hd2⟩]

/-- C7: the date normalizers.  Source A (`_format_date`): every
    well-formed `YYYY-MM-DD` calendar date maps to `DD/MM/YYYY` and every
    input its parse rejects maps to `""` (concretely, `"2024-01-05"` —
    the Source A example — gives `"05/01/2024"`, while `"2024-02-30"` and
    `"garbage"` give `""`).  Source B (`_format_pubmed_date`):
    `"2024 Jan 15"` gives `"15/01/2024"`, `"2024 Jan"` and `"2024"` give
    `"01/01/2024"`, `"garbage"` gives `""`, and any unknown month
    abbreviation defaults to month `"01"`. -/
theorem c7_date_normalizers :
    (∀ y m d : Nat, 1 ≤ y → y ≤ 9999 → 1 ≤ m → m ≤ 12 → 1 ≤ d →
        d ≤ daysInMonth y m →
        ArXivScraper._format_date (String.mk (pad4 y ++ '-' :: (pad2 m ++ '-' :: pad2 d))) =
          String.mk (pad2 d ++ '/' :: (pad2 m ++ '/' :: pad4 y))) ∧
    (∀ s : String, parseYMD s.data = none → ArXivScraper._format_date s = "") ∧
    ArXivScraper._format_date "2024-01-05" = "05/01/2024" ∧
    ArXivScraper._format_date "2024-02-30" = "" ∧
    ArXivScraper._format_date "garbage" = "" ∧
    PubMedScraper._format_pubmed_date "2024 Jan 15" = "15/01/2024" ∧
    PubMedScraper._format_pubmed_date "2024 Jan" = "01/01/2024" ∧
    PubMedScraper._format_pubmed_date "2024" = "01/01/2024" ∧
    PubMedScraper._format_pubmed_date "garbage" = "" ∧
    (∀ mn : List Char, mn ≠ [] → (∀ c ∈ mn, isPySpace c = false) →
        PubMedScraper.month_map.lookup (String.mk mn) = none →
        PubMedScraper._format_pubmed_date
            (String.mk (['2', '0', '2', '4', ' '] ++ (mn ++ [' ', '1', '5']))) =
          "15/01/2024") := by
  refine ⟨?_, ?_, by decide, by decide, by decide, by decide, by decide, by decide,
    by decide, ?_⟩
  · intro y m d hy1 hy2 hm1 hm2 hd1 hd2
    unfold ArXivScraper._format_date
    rw [show (String.mk (pad4 y ++ '-' :: (pad2 m ++ '-' :: pad2 d))).data =
      pad4 y ++ '-' :: (pad2 m ++ '-' :: pad2 d) from rfl]
    rw [parseYMD_render y m d hy1 hy2 hm1 hm2 hd1 hd2]
  · intro s hs
    unfold ArXivScraper._format_date
    rw [hs]
  · intro mn hne hnw hlook
    unfold PubMedScraper._format_pubmed_date
    rw [if_neg (by
      intro h
      have := congrArg String.data h
      simp at this)]
    rw [show (String.mk (['2', '0', '2', '4', ' '] ++ (mn ++ [' ', '1', '5']))).data =
      ['2', '0', '2', '4', ' '] ++ (mn ++ [' ', '1', '5']) from rfl]
    rw [show (['2', '0', '2', '4', ' '] ++ (mn ++ [' ', '1', '5']) : List Char) =
      '2' :: ((['0', '2', '4', ' '] ++ (mn ++ [' ', '1'])) ++ ['5']) from by simp]
    rw [trimC_wrap '2' '5' _ (by decide) (by decide)]
    rw [show ('2' : Char) :: ((['0', '2', '4', ' '] ++ (mn ++ [' ', '1'])) ++ ['5']) =
      ['2', '0', '2', '4'] ++ ' ' :: (mn ++ ' ' :: ['1', '5']) from by simp]
    rw [tokenizeWS_three ['2', '0', '2', '4'] mn ['1', '5'] (by decide) hnw (by decide)
      (by decide) hne (by decide)]
    dsimp only
    rw [hlook]
    rfl

theorem c7_date_normalizers_witness :
    ArXivScraper._format_date (String.mk (pad4 2024 ++ '-' :: (pad2 1 ++ '-' :: pad2 5))) =
      String.mk (pad2 5 ++ '/' :: (pad2 1 ++ '/' :: pad4 2024)) ∧
    ArXivScraper._format_date "2024-13-01" = "" ∧
    PubMedScraper._format_pubmed_date
        (String.mk (['2', '0', '2', '4', ' '] ++ (['X', 'y', 'z'] ++ [' ', '1', '5']))) =
      "15/01/2024" :=
  ⟨c7_date_normalizers.1 2024 1 5 (by decide) (by decide) (by decide) (by decide)
      (by decide) (by decide),
    c7_date_normalizers.2.1 "2024-13-01" (by decide),
    c7_date_normalizers.2.2.2.2.2.2.2.2.2 ['X', 'y', 'z'] (by decide) (by decide)
      (by decide)⟩

theorem c9_href_normalization_witness :
    ((¬ '?' ∈ "/31916282/".data) ∧ "/31916282/".data.head? = some '/' ∧
      ∃ ds pre, ds ≠ [] ∧ (∀ ch ∈ ds, isDigitChar ch = true) ∧
        "/31916282/".data = pre ++ '/' :: (ds ++ ['/'])) ∧
    PubMedScraper._extract_hrefs_from_page ["/31916282/?foo=1"] = ["/31916282/"] :=
  ⟨c9_href_normalization.1 ["/31916282/?foo=1"] "/31916282/" (by decide),
    c9_href_normalization.2.1⟩

end Webscraping
